import Mathlib

/-!
Verification development for the IKC (Iterative K-Core Clustering) engine.

The repository under verification is the Python wrapper package `ikc`
(`src/python/ikc/__init__.py`) around a C++ extension module `_ikc`.
The Python layer (classes `ClusterResult`, `Graph`, `StreamingGraph`,
function `load_graph`) is translated here directly from the source.
The C++ core (`_ikc.load_graph`, `_ikc.run_ikc`, `_ikc.StreamingIKC`,
`_ikc.Cluster`) is not part of the repository's sources; those parts are
modelled from the specification (sections 3, 4.B, 4.C, 4.D, 4.E) and each
such definition is marked `Modelled from the spec:` in its doc comment.

Machine integers of the source are modelled as `Nat` (node ids are
non-negative 64-bit integers read from the edge list; no arithmetic that
could overflow occurs in the modelled code), and the `double` modularity
values as exact fractions (the modularity formula `e_H/m - (d_H/(2m))^2` is
exact rational arithmetic on integer inputs).
-/

namespace Ikc

/-- An undirected edge, stored normalized with the smaller endpoint first. -/
abbrev Edge := Nat × Nat

/-- Normalize an edge so the smaller external id comes first. -/
def normEdge (e : Edge) : Edge := if e.1 ≤ e.2 then e else (e.2, e.1)

/-- Modelled from the spec: the graph store (section 4.A).  Vertices are
external ids; edges are undirected, unweighted, with no self-loops and no
parallel edges (duplicates and self-loops silently ignored on insertion). -/
structure FinGraph where
  verts : List Nat
  edges : List Edge
deriving Repr, DecidableEq

/-- The empty graph. -/
def FinGraph.empty : FinGraph := ⟨[], []⟩

/-- Modelled from the spec: `insert_vertex` — idempotent vertex insertion. -/
def FinGraph.insertVertex (g : FinGraph) (v : Nat) : FinGraph :=
  if g.verts.contains v then g else ⟨g.verts ++ [v], g.edges⟩

/-- Modelled from the spec: `insert_edge` — inserts both endpoints if absent,
ignores duplicates and self-loops. -/
def FinGraph.insertEdge (g : FinGraph) (u v : Nat) : FinGraph :=
  if u = v then g
  else
    let g1 := (g.insertVertex u).insertVertex v
    let e := normEdge (u, v)
    if g1.edges.contains e then g1 else ⟨g1.verts, g1.edges ++ [e]⟩

/-- Build a graph from a list of edge records (the parser collaborator's
output). -/
def FinGraph.ofEdges (es : List Edge) : FinGraph :=
  es.foldl (fun g e => g.insertEdge e.1 e.2) .empty

/-- Degree of a vertex: number of incident edges. -/
def FinGraph.degree (g : FinGraph) (v : Nat) : Nat :=
  (g.edges.filter fun e => e.1 == v || e.2 == v).length

/-- Induced subgraph on a set of vertices (given as a list). -/
def FinGraph.induced (g : FinGraph) (S : List Nat) : FinGraph :=
  ⟨g.verts.filter (fun v => S.contains v),
   g.edges.filter (fun e => S.contains e.1 && S.contains e.2)⟩

/-- Remove a set of vertices and their incident edges. -/
def FinGraph.removeVerts (g : FinGraph) (S : List Nat) : FinGraph :=
  ⟨g.verts.filter (fun v => !S.contains v),
   g.edges.filter (fun e => !(S.contains e.1 || S.contains e.2))⟩

/-- One peeling step: keep the vertices of current degree at least `k`. -/
def FinGraph.peelStep (g : FinGraph) (k : Nat) : FinGraph :=
  g.induced (g.verts.filter fun v => k ≤ g.degree v)

/-- Iterate `peelStep` to a fixpoint (fuel-bounded; each productive step
removes at least one vertex, so `verts.length + 1` steps always reach the
fixpoint). -/
def kcoreFuel : Nat → FinGraph → Nat → FinGraph
  | 0, g, _ => g
  | fuel + 1, g, k =>
    let g' := g.peelStep k
    if g'.verts.length = g.verts.length then g' else kcoreFuel fuel g' k

/-- Modelled from the spec: the k-core of a graph — the maximal induced
subgraph in which every vertex has degree at least `k` (glossary), obtained
by repeated peeling (section 4.B). -/
def FinGraph.kcore (g : FinGraph) (k : Nat) : FinGraph :=
  kcoreFuel (g.verts.length + 1) g k

/-- Modelled from the spec: the core number `C[v]` — the largest `k` such
that `v` belongs to some k-core of the graph (section 3, Data model). -/
def FinGraph.coreNumber (g : FinGraph) (v : Nat) : Nat :=
  (List.range (g.verts.length + 1)).foldl
    (fun acc k => if (g.kcore k).verts.contains v then Nat.max acc k else acc) 0

/-- Modelled from the spec: `max_core` — the largest `k` whose k-core is
non-empty (0 for the empty graph, section 4.B). -/
def FinGraph.maxCore (g : FinGraph) : Nat :=
  (List.range (g.verts.length + 1)).foldl
    (fun acc k => if (g.kcore k).verts.isEmpty then acc else Nat.max acc k) 0

/-- Neighbours of `v` in the graph. -/
def FinGraph.neighborsOf (g : FinGraph) (v : Nat) : List Nat :=
  (g.edges.filter fun e => e.1 == v || e.2 == v).map
    fun e => if e.1 == v then e.2 else e.1

/-- Fuel-bounded breadth-first reachability: `visited` accumulates the
connected component in visit order. -/
def reachFuel : Nat → FinGraph → List Nat → List Nat → List Nat
  | 0, _, visited, _ => visited
  | fuel + 1, g, visited, frontier =>
    match frontier with
    | [] => visited
    | v :: rest =>
      if visited.contains v then reachFuel fuel g visited rest
      else reachFuel fuel g (visited ++ [v]) (rest ++ g.neighborsOf v)

/-- Connected component of `v` (BFS, as in section 4.C). -/
def FinGraph.reach (g : FinGraph) (v : Nat) : List Nat :=
  reachFuel (g.verts.length + 2 * g.edges.length + 2) g [] [v]

/-- Fuel-bounded enumeration of the connected components of a graph. -/
def componentsFuel : Nat → FinGraph → List Nat → List (List Nat)
  | 0, _, _ => []
  | fuel + 1, g, vs =>
    match vs with
    | [] => []
    | v :: rest =>
      let comp := g.reach v
      comp :: componentsFuel fuel g (rest.filter fun w => !comp.contains w)

/-- All connected components of a graph, in first-vertex order. -/
def FinGraph.components (g : FinGraph) : List (List Nat) :=
  componentsFuel (g.verts.length + 1) g g.verts

/-- Minimum of a list of naturals (0 for the empty list; components are
never empty). -/
def listMin (l : List Nat) : Nat :=
  match l with
  | [] => 0
  | x :: xs => xs.foldl Nat.min x

/-- Insert a component into a list sorted by ascending minimum member. -/
def insertComp (H : List Nat) : List (List Nat) → List (List Nat)
  | [] => [H]
  | K :: rest =>
    if listMin H ≤ listMin K then H :: K :: rest else K :: insertComp H rest

/-- Sort components by ascending minimum external-id member (the emission
tie-break of section 4.D). -/
def sortComps : List (List Nat) → List (List Nat)
  | [] => []
  | H :: rest => insertComp H (sortComps rest)

/-- An exact, unnormalized fraction.  The C++ core stores modularity as a
binary64 number; the embedding carries the exact rational value
`num / den` instead, kept unnormalized so that every arithmetic step is
plain integer arithmetic. -/
structure Frac where
  num : Int
  den : Int
deriving Repr, DecidableEq

/-- The rational value of a `Frac`. -/
def Frac.toRat (f : Frac) : ℚ := (f.num : ℚ) / (f.den : ℚ)

/-- Collaborator-visible rendering of a modularity value (the Python layer
prints the binary64 value; the embedding prints the exact fraction). -/
def Frac.render (f : Frac) : String := toString f.num ++ "/" ++ toString f.den

/-- Modelled from the spec: `_ikc.Cluster` — an emitted cluster: its member
external ids, the k-core level `k_value` at which it was peeled, and its
modularity (section 3, Data model). -/
structure Cluster where
  nodes : List Nat
  k_value : Nat
  modularity : Frac
deriving Repr, DecidableEq

/-- Number of edges of the current graph internal to `H` (`e_H` of the
modularity formula, section 4.D). -/
def internalEdges (cur : FinGraph) (H : List Nat) : Nat :=
  (cur.edges.filter fun e => H.contains e.1 && H.contains e.2).length

/-- Total original-graph degree of the members of `H` (`d_H` of the
modularity formula, section 4.D). -/
def totalDegree (orig : FinGraph) (H : List Nat) : Nat :=
  (H.map fun v => orig.degree v).foldl (· + ·) 0

/-- Modelled from the spec: single-community Newman modularity
`q(H) = e_H / m − (d_H / (2m))²` with `e_H` the edges internal to `H` in
the current graph and `d_H` the total degree of `H` in the original graph
(section 4.D). -/
def clusterModularity (orig cur : FinGraph) (H : List Nat) (m : Nat) : ℚ :=
  ((internalEdges cur H : ℚ)) / (m : ℚ)
    - ((totalDegree orig H : ℚ) / (2 * (m : ℚ))) ^ 2

/-- The modularity of `H` as an exact fraction over the common denominator
`4·m²`: `q(H) = (4·m·e_H − d_H²) / (4·m²)`. -/
def modularityFrac (orig cur : FinGraph) (H : List Nat) (m : Nat) : Frac :=
  ⟨4 * (m : Int) * (internalEdges cur H : Int) - (totalDegree orig H : Int) ^ 2,
   4 * (m : Int) ^ 2⟩

/-- Modelled from the spec: one round of the IKC driver loop plus recursion
(section 4.D): peel the current maximum k-core's components, emit those with
positive modularity, remove all peeled vertices, repeat.  Fuel-bounded: each
iteration removes at least one vertex. -/
def ikcLoopFuel : Nat → FinGraph → FinGraph → Nat → Nat → List Cluster
  | 0, _, _, _, _ => []
  | fuel + 1, orig, cur, mk, m =>
    let kmax := cur.maxCore
    if kmax < Nat.max mk 1 then []
    else
      let core := cur.kcore kmax
      let comps := sortComps core.components
      let emitted := comps.filterMap fun H =>
        let q := modularityFrac orig cur H m
        if 0 < q.num then some ⟨H, kmax, q⟩ else none
      emitted ++ ikcLoopFuel fuel orig (cur.removeVerts core.verts) mk m

/-- Modelled from the spec: the IKC driver restricted to a current subgraph,
with an explicit (possibly frozen) modularity reference `m` (sections 4.D
and 4.E step 7). -/
def run_ikc_on (orig cur : FinGraph) (min_k m : Nat) : List Cluster :=
  ikcLoopFuel (cur.verts.length + 1) orig cur min_k m

/-- Modelled from the spec: `_ikc.run_ikc` — the full IKC driver on a graph,
with `total_m := |E|` (section 4.D). -/
def run_ikc (g : FinGraph) (min_k : Nat) : List Cluster :=
  run_ikc_on g g min_k g.edges.length

/-! ## The Python class `ClusterResult` (src/python/ikc/__init__.py, lines 15–87)

`data` is a cached property: the first read materializes the list of
`(node_id, cluster_id, k_value, modularity)` tuples from the clusters,
enumerated with `start=1`; later reads return the cached list.  `save`
re-traverses the clusters with the same enumeration, writing either
tab-separated `node_id, cluster_id` lines (tsv=True) or comma-separated
lines of all four columns under a header (tsv=False). -/

/-- A row of `ClusterResult.data`: `(node_id, cluster_id, k_value, modularity)`. -/
abbrev DataRow := Nat × Nat × Nat × Frac

/-- The inner double loop of the `data` property, carrying the 1-based
enumeration counter: `for cluster_idx, cluster in enumerate(clusters, start=1):
for node_id in cluster.nodes: append((node_id, cluster_idx, k_value, modularity))`. -/
def dataFrom : Nat → List Cluster → List DataRow
  | _, [] => []
  | i, c :: rest =>
    (c.nodes.map fun node_id => (node_id, i, c.k_value, c.modularity)) ++ dataFrom (i + 1) rest

/-- The value computed by the `data` property on a cache miss. -/
def computeData (clusters : List Cluster) : List DataRow := dataFrom 1 clusters

/-- The structured content of the TSV output: one `(node_id, cluster_id)`
pair per membership, in write order. -/
def tsvPairsFrom : Nat → List Cluster → List (Nat × Nat)
  | _, [] => []
  | i, c :: rest =>
    (c.nodes.map fun node_id => (node_id, i)) ++ tsvPairsFrom (i + 1) rest

/-- The `(node_id, cluster_id)` pairs written by `save(filename, tsv=True)`. -/
def tsvPairs (clusters : List Cluster) : List (Nat × Nat) := tsvPairsFrom 1 clusters

/-- Rendering of one TSV line: `f"{node_id}\t{cluster_idx}"`. -/
def tsvRender (p : Nat × Nat) : String := toString p.1 ++ "\t" ++ toString p.2

/-- Rendering of one CSV body line:
`f"{node_id},{cluster_idx},{k_value},{modularity}"`. -/
def csvRender (e : DataRow) : String :=
  toString e.1 ++ "," ++ toString e.2.1 ++ "," ++ toString e.2.2.1 ++ ","
    ++ Frac.render e.2.2.2

/-- The loop of `save(filename, tsv=True)`: writes one tab-separated line
per cluster membership, no header. -/
def tsvLinesFrom : Nat → List Cluster → List String
  | _, [] => []
  | i, c :: rest =>
    (c.nodes.map fun node_id => toString node_id ++ "\t" ++ toString i)
      ++ tsvLinesFrom (i + 1) rest

/-- The loop of `save(filename, tsv=False)`: writes one comma-separated line
per cluster membership (the header is written before the loop). -/
def csvBodyFrom : Nat → List Cluster → List String
  | _, [] => []
  | i, c :: rest =>
    (c.nodes.map fun node_id =>
      toString node_id ++ "," ++ toString i ++ "," ++ toString c.k_value ++ ","
        ++ Frac.render c.modularity)
      ++ csvBodyFrom (i + 1) rest

/-- `ClusterResult`: the list of clusters plus the `_data` cache
(initialized to `None` by `__init__`). -/
structure ClusterResult where
  clusters : List Cluster
  dataCache : Option (List DataRow)
deriving Repr, DecidableEq

/-- `ClusterResult(clusters)`: the constructor sets `_data = None`. -/
def ClusterResult.make (clusters : List Cluster) : ClusterResult := ⟨clusters, none⟩

/-- The `data` property: returns the cached list if present, otherwise
computes it, stores it in the cache and returns it.  The second component is
the object state after the read. -/
def ClusterResult.data (r : ClusterResult) : List DataRow × ClusterResult :=
  match r.dataCache with
  | some d => (d, r)
  | none => (computeData r.clusters, { r with dataCache := some (computeData r.clusters) })

/-- `save(filename, tsv)`: the sequence of lines written to the file. -/
def ClusterResult.save (r : ClusterResult) (tsv : Bool) : List String :=
  if tsv then tsvLinesFrom 1 r.clusters
  else "node_id,cluster_id,k_value,modularity" :: csvBodyFrom 1 r.clusters

/-- `__len__`: the number of nodes in the clustering,
`sum(len(cluster.nodes) for cluster in self.clusters)`. -/
def ClusterResult.len (r : ClusterResult) : Nat :=
  (r.clusters.map fun c => c.nodes.length).foldl (· + ·) 0

/-- The `num_nodes` property (same expression as `__len__` in the source). -/
def ClusterResult.num_nodes (r : ClusterResult) : Nat :=
  (r.clusters.map fun c => c.nodes.length).foldl (· + ·) 0

/-- The `num_clusters` property: `len(self.clusters)`. -/
def ClusterResult.num_clusters (r : ClusterResult) : Nat := r.clusters.length

/-! ## The C++ streaming engine `_ikc.StreamingIKC`

The engine's code is not part of this repository's sources; it is modelled
from the specification, section 4.E. -/

/-- Error taxonomy (spec section 7).  `noInitialClustering` stands for the
spec's `NotInitialized` (the wrapper raises `RuntimeError("Must call ikc()
before ...")`). -/
inductive IKCError where
  | noInitialClustering (entry : String)
  | edgeReferencesUnknownVertex (ext_id : Nat)
  | batchStateViolation
  | fileNotFound (path : String)
deriving Repr, DecidableEq

/-- Modelled from the spec: the statistics record returned by
`StreamingIKC.get_last_stats` (section 4.E step 8).  The two wall-clock time
fields are not modelled as real time; they are carried as numbers so the
record's shape matches the wrapper's dictionary. -/
structure UpdateStats where
  affected_nodes : Nat
  invalidated_clusters : Nat
  valid_clusters : Nat
  merge_candidates : Nat
  recompute_time_ms : Nat
  total_time_ms : Nat
deriving Repr, DecidableEq

/-- The all-zero statistics record. -/
def UpdateStats.zero : UpdateStats := ⟨0, 0, 0, 0, 0, 0⟩

/-- Modelled from the spec: the state owned by `_ikc.StreamingIKC`
(section 3, StreamingState): the persistent graph, `min_k`, the frozen
modularity reference `original_total_m`, the current clustering, the batch
flag and buffers, and the last update statistics. -/
structure StreamingIKC where
  g : FinGraph
  min_k : Nat
  total_m : Nat
  clusters : List Cluster
  batching : Bool
  bufEdges : List Edge
  bufNodes : List Nat
  stats : UpdateStats
deriving Repr, DecidableEq

/-- Modelled from the spec: `StreamingIKC(graph, min_k)` followed by
`initial_clustering` — runs the full driver (section 4.D) and freezes
`total_m := |E|` (section 4.E). -/
def StreamingIKC.initial (g : FinGraph) (min_k : Nat) : StreamingIKC :=
  { g := g, min_k := min_k, total_m := g.edges.length,
    clusters := run_ikc g min_k, batching := false,
    bufEdges := [], bufNodes := [], stats := UpdateStats.zero }

/-- Whether `v` is a vertex already known to the engine's graph. -/
def StreamingIKC.known (e : StreamingIKC) (v : Nat) : Bool := e.g.verts.contains v

/-- Apply a batch of node and edge additions to the graph (spec 4.E step 1;
unknown endpoints of edges are created on demand by `insert_edge`). -/
def applyAdditions (g : FinGraph) (ns : List Nat) (es : List Edge) : FinGraph :=
  es.foldl (fun h p => h.insertEdge p.1 p.2) (ns.foldl FinGraph.insertVertex g)

/-- Step 7's positional re-insertion: still-valid clusters keep their
positions, each invalidated position is filled by the next newly emitted
cluster, and net-new clusters are appended at the end (spec 4.E step 7). -/
def reinsert (validP : Cluster → Bool) : List Cluster → List Cluster → List Cluster
  | [], news => news
  | K :: rest, news =>
    if validP K then K :: reinsert validP rest news
    else
      match news with
      | [] => reinsert validP rest []
      | n :: ntl => n :: reinsert validP rest ntl

/-- Modelled from the spec: the committed incremental update (section 4.E
steps 1–8): apply the additions, recompute core numbers, invalidate clusters
that lost a member below their `k_value` or are touched by a new edge,
re-run the driver on the invalidated region with the frozen `total_m`, and
re-insert the new clusters positionally. -/
def StreamingIKC.commitAdditions (e : StreamingIKC) (ns : List Nat) (es : List Edge) :
    StreamingIKC :=
  let g' := applyAdditions e.g ns es
  let newCore : Nat → Nat := fun v => g'.coreNumber v
  let affected := g'.verts.filter fun v => newCore v != e.g.coreNumber v
  let touched : Cluster → Bool := fun K =>
    es.any fun p => K.nodes.contains p.1 || K.nodes.contains p.2
  let validP : Cluster → Bool := fun K =>
    (K.nodes.all fun v => K.k_value ≤ newCore v) && !touched K
  let validCs := e.clusters.filter validP
  let invalidCs := e.clusters.filter fun K => !validP K
  let inInvalid : Nat → Bool := fun v => invalidCs.any fun K => K.nodes.contains v
  let inValid : Nat → Bool := fun v => validCs.any fun K => K.nodes.contains v
  let region := g'.verts.filter fun v =>
    !inValid v && (inInvalid v || e.min_k ≤ newCore v)
  let newCs := run_ikc_on g' (g'.induced region) e.min_k e.total_m
  let mergeCount := (es.filter fun p =>
    e.clusters.any fun K => e.clusters.any fun L =>
      K != L && K.nodes.contains p.1 && L.nodes.contains p.2).length
  { e with
      g := g'
      clusters := reinsert validP e.clusters newCs
      stats := { affected_nodes := affected.length,
                 invalidated_clusters := invalidCs.length,
                 valid_clusters := validCs.length,
                 merge_candidates := mergeCount,
                 recompute_time_ms := 0, total_time_ms := 0 } }

/-- Modelled from the spec: `StreamingIKC.add_edges` — outside batch mode the
edges are committed at once (vertices created on demand); inside batch mode
the graph grows eagerly but the recompute is deferred and the current
clustering is returned unchanged (section 4.E, batch semantics). -/
def StreamingIKC.add_edges (e : StreamingIKC) (es : List Edge) :
    List Cluster × StreamingIKC :=
  if e.batching then
    (e.clusters, { e with g := applyAdditions e.g [] es, bufEdges := e.bufEdges ++ es })
  else
    let e' := e.commitAdditions [] es
    (e'.clusters, e')

/-- Modelled from the spec: `StreamingIKC.add_nodes` — isolated nodes; same
batch behaviour as `add_edges`. -/
def StreamingIKC.add_nodes (e : StreamingIKC) (ns : List Nat) :
    List Cluster × StreamingIKC :=
  if e.batching then
    (e.clusters, { e with g := applyAdditions e.g ns [], bufNodes := e.bufNodes ++ ns })
  else
    let e' := e.commitAdditions ns []
    (e'.clusters, e')

/-- Modelled from the spec: `StreamingIKC.update(edges, nodes, verbose)` —
fails with `EdgeReferencesUnknownVertex` if any endpoint of a new edge is
neither a known vertex nor listed in `nodes` (section 4.E, Validation);
otherwise commits the whole update atomically. -/
def StreamingIKC.update (e : StreamingIKC) (es : List Edge) (ns : List Nat) :
    Except IKCError (List Cluster × StreamingIKC) :=
  let endpointOk : Nat → Bool := fun v => e.known v || ns.contains v
  match es.find? (fun p => !(endpointOk p.1 && endpointOk p.2)) with
  | some p =>
    .error (.edgeReferencesUnknownVertex (if !endpointOk p.1 then p.1 else p.2))
  | none =>
    let e' := e.commitAdditions ns es
    .ok (e'.clusters, e')

/-- Modelled from the spec: `begin_batch` — enter batch mode; idempotent. -/
def StreamingIKC.begin_batch (e : StreamingIKC) : StreamingIKC :=
  { e with batching := true }

/-- Modelled from the spec: `commit_batch` — outside a batch this is a
`BatchStateViolation`; otherwise the buffered additions are committed and
batch mode is left (section 4.E, batch semantics). -/
def StreamingIKC.commit_batch (e : StreamingIKC) :
    Except IKCError (List Cluster × StreamingIKC) :=
  if e.batching then
    let e' := e.commitAdditions e.bufNodes e.bufEdges
    .ok (e'.clusters, { e' with batching := false, bufEdges := [], bufNodes := [] })
  else .error .batchStateViolation

/-- Modelled from the spec: `get_max_core` — the current maximum core
number. -/
def StreamingIKC.get_max_core (e : StreamingIKC) : Nat := e.g.maxCore

/-- Modelled from the spec: `get_num_nodes` / `get_num_edges`. -/
def StreamingIKC.get_num_nodes (e : StreamingIKC) : Nat := e.g.verts.length

/-- Modelled from the spec: `get_num_edges`. -/
def StreamingIKC.get_num_edges (e : StreamingIKC) : Nat := e.g.edges.length

/-! ## The Python wrapper classes `Graph` and `StreamingGraph`
(src/python/ikc/__init__.py, lines 90–492)

The filesystem is abstract: `resolve` models `str(Path(p).resolve())` and
`exists_file` models `Path(p).exists()`.  `_ikc.load_graph` (the C++ loader,
absent from the sources) is a parameter `loadFn`; the constructor-level
claims only concern the existence check, which happens before the loader is
consulted. -/

/-- The ambient filesystem as seen by `pathlib.Path`. -/
structure FileSystem where
  resolve : String → String
  exists_file : String → Bool

/-- `Graph.__init__`: resolve the path, raise `FileNotFoundError` if it does
not exist, otherwise load the graph via `_ikc.load_graph`. -/
structure Graph where
  graph_file : String
  cppGraph : FinGraph
deriving Repr, DecidableEq

/-- The body of `Graph.__init__(graph_file, ...)` (lines 104–113). -/
def Graph.init (fs : FileSystem) (loadFn : String → FinGraph) (graph_file : String) :
    Except IKCError Graph :=
  let resolved := fs.resolve graph_file
  if fs.exists_file resolved then .ok ⟨resolved, loadFn resolved⟩
  else .error (.fileNotFound resolved)

/-- The module-level function `load_graph` (lines 188–206): constructs a
`Graph`. -/
def load_graph (fs : FileSystem) (loadFn : String → FinGraph) (graph_file : String) :
    Except IKCError Graph :=
  Graph.init fs loadFn graph_file

/-- `Graph.ikc(min_k, ...)` (lines 125–182): runs `_ikc.run_ikc` and wraps
the clusters in a fresh `ClusterResult`. -/
def Graph.ikc (g : Graph) (min_k : Nat) : ClusterResult :=
  ClusterResult.make (run_ikc g.cppGraph min_k)

/-- `StreamingGraph`: the wrapper state — the loaded graph, and the three
attributes set to `None` by `__init__`: `_streaming_ikc`, `_min_k`,
`_current_result` (lines 214–237). -/
structure StreamingGraph where
  graph_file : String
  cppGraph : FinGraph
  streaming_ikc : Option StreamingIKC
  stored_min_k : Option Nat
  current_result : Option ClusterResult
deriving Repr, DecidableEq

/-- The body of `StreamingGraph.__init__` (lines 214–237): same existence
check as `Graph.__init__`, then `_streaming_ikc = None`, `_min_k = None`,
`_current_result = None`. -/
def StreamingGraph.init (fs : FileSystem) (loadFn : String → FinGraph)
    (graph_file : String) : Except IKCError StreamingGraph :=
  let resolved := fs.resolve graph_file
  if fs.exists_file resolved then
    .ok ⟨resolved, loadFn resolved, none, none, none⟩
  else .error (.fileNotFound resolved)

/-- `StreamingGraph.ikc(min_k, ...)` (lines 253–312): creates the
`StreamingIKC`, runs the initial clustering, stores and returns the result. -/
def StreamingGraph.ikc (s : StreamingGraph) (min_k : Nat) :
    ClusterResult × StreamingGraph :=
  let eng := StreamingIKC.initial s.cppGraph min_k
  let result := ClusterResult.make eng.clusters
  (result,
   { s with streaming_ikc := some eng, stored_min_k := some min_k,
            current_result := some result })

/-- `StreamingGraph.add_edges(edges, verbose)` (lines 314–333): raises
`RuntimeError` if `ikc()` has not been called; otherwise delegates to the
engine and stores the fresh `ClusterResult`. -/
def StreamingGraph.add_edges (s : StreamingGraph) (edges : List Edge) :
    Except IKCError ClusterResult × StreamingGraph :=
  match s.streaming_ikc with
  | none => (.error (.noInitialClustering "add_edges"), s)
  | some eng =>
    let (cs, eng') := eng.add_edges edges
    let result := ClusterResult.make cs
    (.ok result, { s with streaming_ikc := some eng', current_result := some result })

/-- `StreamingGraph.add_nodes(nodes, verbose)` (lines 335–354). -/
def StreamingGraph.add_nodes (s : StreamingGraph) (nodes : List Nat) :
    Except IKCError ClusterResult × StreamingGraph :=
  match s.streaming_ikc with
  | none => (.error (.noInitialClustering "add_nodes"), s)
  | some eng =>
    let (cs, eng') := eng.add_nodes nodes
    let result := ClusterResult.make cs
    (.ok result, { s with streaming_ikc := some eng', current_result := some result })

/-- `StreamingGraph.update(new_edges, new_nodes, verbose)` (lines 356–402):
raises `RuntimeError` if `ikc()` has not been called; `None` arguments
default to empty lists; an engine failure propagates (re-tagged as
`ValueError` by the wrapper) with `_current_result` untouched. -/
def StreamingGraph.update (s : StreamingGraph) (new_edges : List Edge)
    (new_nodes : List Nat) : Except IKCError ClusterResult × StreamingGraph :=
  match s.streaming_ikc with
  | none => (.error (.noInitialClustering "update"), s)
  | some eng =>
    match eng.update new_edges new_nodes with
    | .error err => (.error err, s)
    | .ok (cs, eng') =>
      let result := ClusterResult.make cs
      (.ok result, { s with streaming_ikc := some eng', current_result := some result })

/-- `StreamingGraph.begin_batch()` (lines 404–416). -/
def StreamingGraph.begin_batch (s : StreamingGraph) :
    Except IKCError Unit × StreamingGraph :=
  match s.streaming_ikc with
  | none => (.error (.noInitialClustering "begin_batch"), s)
  | some eng => (.ok (), { s with streaming_ikc := some eng.begin_batch })

/-- `StreamingGraph.commit_batch(verbose)` (lines 418–436). -/
def StreamingGraph.commit_batch (s : StreamingGraph) :
    Except IKCError ClusterResult × StreamingGraph :=
  match s.streaming_ikc with
  | none => (.error (.noInitialClustering "commit_batch"), s)
  | some eng =>
    match eng.commit_batch with
    | .error err => (.error err, s)
    | .ok (cs, eng') =>
      let result := ClusterResult.make cs
      (.ok result, { s with streaming_ikc := some eng', current_result := some result })

/-- The `current_clustering` property (lines 438–441): returns
`_current_result` without recomputation. -/
def StreamingGraph.current_clustering (s : StreamingGraph) : Option ClusterResult :=
  s.current_result

/-- The `last_update_stats` property (lines 443–470): `None` before
`ikc()`, otherwise the engine's statistics record. -/
def StreamingGraph.last_update_stats (s : StreamingGraph) : Option UpdateStats :=
  match s.streaming_ikc with
  | none => none
  | some eng => some eng.stats

/-- The `max_core` property (lines 472–477): `None` before `ikc()`. -/
def StreamingGraph.max_core (s : StreamingGraph) : Option Nat :=
  match s.streaming_ikc with
  | none => none
  | some eng => some eng.get_max_core

/-- The `is_batch_mode` property (lines 479–484): `False` before `ikc()`. -/
def StreamingGraph.is_batch_mode (s : StreamingGraph) : Bool :=
  match s.streaming_ikc with
  | none => false
  | some eng => eng.batching

/-! ## Helper lemmas about the enumeration loops of `data` and `save` -/

/-- Folding addition from any accumulator computes the accumulator plus the
list sum. -/
theorem foldl_add_eq_sum (l : List Nat) : ∀ acc : Nat, l.foldl (· + ·) acc = acc + l.sum := by
  induction l with
  | nil => intro acc; simp
  | cons x xs ih => intro acc; simp [ih]; omega

/-- The `data` loop produces one row per cluster membership. -/
theorem dataFrom_length (cls : List Cluster) :
    ∀ i, (dataFrom i cls).length = (cls.map fun c => c.nodes.length).sum := by
  induction cls with
  | nil => intro i; simp [dataFrom]
  | cons c rest ih => intro i; simp [dataFrom, ih]

/-- Every row produced from enumeration counter `i` onwards carries a
cluster id of at least `i`. -/
theorem dataFrom_snd_ge (cls : List Cluster) :
    ∀ i, ∀ e ∈ dataFrom i cls, i ≤ e.2.1 := by
  induction cls with
  | nil => intro i e he; simp [dataFrom] at he
  | cons c rest ih =>
    intro i e he
    rcases List.mem_append.mp he with hb | ht
    · obtain ⟨n, _, rfl⟩ := List.mem_map.mp hb
      exact le_refl i
    · exact Nat.le_of_succ_le (ih (i + 1) e ht)

/-- Every row produced from enumeration counter `i` carries a cluster id
below `i` plus the number of clusters. -/
theorem dataFrom_snd_lt (cls : List Cluster) :
    ∀ i, ∀ e ∈ dataFrom i cls, e.2.1 < i + cls.length := by
  induction cls with
  | nil => intro i e he; simp [dataFrom] at he
  | cons c rest ih =>
    intro i e he
    rcases List.mem_append.mp he with hb | ht
    · obtain ⟨n, _, rfl⟩ := List.mem_map.mp hb
      simp
    · have := ih (i + 1) e ht
      simp only [List.length_cons]
      omega

/-- The TSV pair loop is the projection of the `data` loop to its first two
columns. -/
theorem tsvPairsFrom_eq_map (cls : List Cluster) :
    ∀ i, tsvPairsFrom i cls = (dataFrom i cls).map fun e => (e.1, e.2.1) := by
  induction cls with
  | nil => intro i; simp [tsvPairsFrom, dataFrom]
  | cons c rest ih =>
    intro i
    simp [tsvPairsFrom, dataFrom, ih, List.map_map, Function.comp]

/-- The TSV line loop renders exactly the TSV pairs. -/
theorem tsvLinesFrom_eq_map (cls : List Cluster) :
    ∀ i, tsvLinesFrom i cls = (tsvPairsFrom i cls).map tsvRender := by
  induction cls with
  | nil => intro i; simp [tsvLinesFrom, tsvPairsFrom]
  | cons c rest ih =>
    intro i
    simp [tsvLinesFrom, tsvPairsFrom, ih, List.map_map, Function.comp, tsvRender]

/-- The CSV body loop renders exactly the rows of the `data` property. -/
theorem csvBodyFrom_eq_map (cls : List Cluster) :
    ∀ i, csvBodyFrom i cls = (dataFrom i cls).map csvRender := by
  induction cls with
  | nil => intro i; simp [csvBodyFrom, dataFrom]
  | cons c rest ih =>
    intro i
    simp [csvBodyFrom, dataFrom, ih, List.map_map, Function.comp, csvRender]

/-- The rows whose cluster id names the cluster at position `pre.length` of
the enumeration starting at `i` are exactly that cluster's rows. -/
theorem dataFrom_filter (c : Cluster) (post : List Cluster) :
    ∀ (pre : List Cluster) (i : Nat),
      (dataFrom i (pre ++ c :: post)).filter (fun e => e.2.1 == i + pre.length)
        = c.nodes.map fun n => (n, i + pre.length, c.k_value, c.modularity) := by
  intro pre
  induction pre with
  | nil =>
    intro i
    simp only [List.nil_append, dataFrom, List.filter_append, List.length_nil,
      Nat.add_zero]
    have h1 : (c.nodes.map fun n => (n, i, c.k_value, c.modularity)).filter
        (fun e => e.2.1 == i) = c.nodes.map fun n => (n, i, c.k_value, c.modularity) := by
      refine List.filter_eq_self.mpr ?_
      intro a ha
      obtain ⟨n, _, rfl⟩ := List.mem_map.mp ha
      simp
    have h2 : (dataFrom (i + 1) post).filter (fun e => e.2.1 == i) = [] := by
      refine List.filter_eq_nil_iff.mpr ?_
      intro a ha
      have := dataFrom_snd_ge post (i + 1) a ha
      simp only [beq_iff_eq]
      omega
    rw [h1, h2, List.append_nil]
  | cons d pre ih =>
    intro i
    simp only [List.cons_append, dataFrom, List.filter_append, List.length_cons]
    have h1 : (d.nodes.map fun n => (n, i, d.k_value, d.modularity)).filter
        (fun e => e.2.1 == i + (pre.length + 1)) = [] := by
      refine List.filter_eq_nil_iff.mpr ?_
      intro a ha
      obtain ⟨n, _, rfl⟩ := List.mem_map.mp ha
      simp only [beq_iff_eq]
      omega
    have hEq : i + (pre.length + 1) = i + 1 + pre.length := by omega
    rw [h1, List.nil_append, hEq]
    exact ih (i + 1)

/-- The order demanded of TSV lines by the spec (section 6): cluster id
ascending, node id ascending among equal cluster ids. -/
def tsvLe (a b : Nat × Nat) : Prop := a.2 < b.2 ∨ (a.2 = b.2 ∧ a.1 ≤ b.1)

instance : DecidableRel tsvLe := fun a b => by unfold tsvLe; infer_instance

/-- Every TSV pair produced from enumeration counter `i` onwards carries a
cluster id of at least `i`. -/
theorem tsvPairsFrom_snd_ge (cls : List Cluster) :
    ∀ i, ∀ p ∈ tsvPairsFrom i cls, i ≤ p.2 := by
  intro i p hp
  rw [tsvPairsFrom_eq_map] at hp
  obtain ⟨e, he, rfl⟩ := List.mem_map.mp hp
  exact dataFrom_snd_ge cls i e he

/-- If every cluster's node list is ascending, the TSV pairs come out
sorted by cluster id, then node id. -/
theorem tsvPairsFrom_pairwise (cls : List Cluster) :
    ∀ i, (∀ c ∈ cls, c.nodes.Pairwise (· ≤ ·)) →
      (tsvPairsFrom i cls).Pairwise tsvLe := by
  induction cls with
  | nil => intro i _; simp [tsvPairsFrom]
  | cons c rest ih =>
    intro i h
    refine List.pairwise_append.mpr ⟨?_, ?_, ?_⟩
    · refine List.pairwise_map.mpr ?_
      refine (h c (List.mem_cons_self c rest)).imp ?_
      intro a b hab
      exact Or.inr ⟨rfl, hab⟩
    · exact ih (i + 1) fun d hd => h d (List.mem_cons_of_mem c hd)
    · intro a ha b hb
      obtain ⟨n, _, rfl⟩ := List.mem_map.mp ha
      have := tsvPairsFrom_snd_ge rest (i + 1) b hb
      exact Or.inl (by omega)

/-! ## Claim C2 -/

/-- Claim C2 (as stated) is false: `save(filename, tsv=True)` writes the
clusters' node lists in their stored order without sorting, so a
`ClusterResult` holding a cluster whose node list is `[2, 1]` produces the
lines `2\t1`, `1\t1`, which are not sorted by node id within the equal
cluster id 1. -/
theorem claim_C2_counterexample :
    (ClusterResult.make [⟨[2, 1], 2, ⟨1, 2⟩⟩]).save true = ["2\t1", "1\t1"]
    ∧ ¬ (tsvPairs [⟨[2, 1], 2, ⟨1, 2⟩⟩]).Pairwise tsvLe := by
  constructor
  · rfl
  · decide

/-- Claim C2, amended: `save(filename, tsv=True)` writes exactly one
tab-separated `node_id`, `cluster_id` line per membership with no header,
the lines render the `(node_id, cluster_id)` pairs in emission order, and
they are sorted by (cluster_id ascending, node_id ascending) provided each
cluster's stored node list is ascending. -/
theorem claim_C2 (r : ClusterResult)
    (h : ∀ c ∈ r.clusters, c.nodes.Pairwise (· ≤ ·)) :
    r.save true = (tsvPairs r.clusters).map tsvRender
    ∧ (r.save true).length = (r.clusters.map fun c => c.nodes.length).sum
    ∧ (tsvPairs r.clusters).Pairwise tsvLe := by
  refine ⟨?_, ?_, tsvPairsFrom_pairwise r.clusters 1 h⟩
  · simp [ClusterResult.save, tsvLinesFrom_eq_map, tsvPairs]
  · simp [ClusterResult.save, tsvLinesFrom_eq_map, tsvPairs,
      tsvPairsFrom_eq_map, dataFrom_length]

/-- Witness for claim C2 at a concrete sorted input. -/
theorem claim_C2_witness :
    (∀ c ∈ [(⟨[1, 2], 2, ⟨1, 2⟩⟩ : Cluster), ⟨[3], 1, ⟨1, 4⟩⟩],
        c.nodes.Pairwise (· ≤ ·))
    ∧ ((ClusterResult.make [⟨[1, 2], 2, ⟨1, 2⟩⟩, ⟨[3], 1, ⟨1, 4⟩⟩]).save true
          = (tsvPairs [⟨[1, 2], 2, ⟨1, 2⟩⟩, ⟨[3], 1, ⟨1, 4⟩⟩]).map tsvRender
        ∧ ((ClusterResult.make [⟨[1, 2], 2, ⟨1, 2⟩⟩, ⟨[3], 1, ⟨1, 4⟩⟩]).save true).length
          = (([⟨[1, 2], 2, ⟨1, 2⟩⟩, ⟨[3], 1, ⟨1, 4⟩⟩] : List Cluster).map
              fun c => c.nodes.length).sum
        ∧ (tsvPairs [⟨[1, 2], 2, ⟨1, 2⟩⟩, ⟨[3], 1, ⟨1, 4⟩⟩]).Pairwise tsvLe) :=
  ⟨by decide, claim_C2 (ClusterResult.make [⟨[1, 2], 2, ⟨1, 2⟩⟩, ⟨[3], 1, ⟨1, 4⟩⟩])
    (by decide)⟩

/-! ## Claim C5 -/

/-- Claim C5: the cluster id attached to each node in the `data` property
and in both saved file formats is the 1-based position of that node's
cluster in the emission-ordered cluster sequence: the rows carrying cluster
id `pre.length + 1` are exactly the rows of the cluster at 0-based position
`pre.length`, every row's cluster id lies in `1..N`, and both file formats
render exactly these rows. -/
theorem claim_C5 (clusters pre post : List Cluster) (c : Cluster)
    (h : clusters = pre ++ c :: post) :
    (computeData clusters).filter (fun e => e.2.1 == pre.length + 1)
        = c.nodes.map (fun n => (n, pre.length + 1, c.k_value, c.modularity))
    ∧ (tsvPairs clusters).filter (fun p => p.2 == pre.length + 1)
        = c.nodes.map (fun n => (n, pre.length + 1))
    ∧ (∀ e ∈ computeData clusters, 1 ≤ e.2.1 ∧ e.2.1 ≤ clusters.length)
    ∧ tsvLinesFrom 1 clusters = (tsvPairs clusters).map tsvRender
    ∧ csvBodyFrom 1 clusters = (computeData clusters).map csvRender := by
  subst h
  have hco : pre.length + 1 = 1 + pre.length := Nat.add_comm _ _
  refine ⟨?_, ?_, ?_, tsvLinesFrom_eq_map _ 1, csvBodyFrom_eq_map _ 1⟩
  · rw [hco]
    exact dataFrom_filter c post pre 1
  · rw [tsvPairs, tsvPairsFrom_eq_map, List.filter_map, hco]
    have : ((fun p : Nat × Nat => p.2 == 1 + pre.length) ∘ fun e : DataRow => (e.1, e.2.1))
        = fun e : DataRow => e.2.1 == 1 + pre.length := rfl
    rw [this, dataFrom_filter c post pre 1, List.map_map]
    rfl
  · intro e he
    have h1 := dataFrom_snd_ge (pre ++ c :: post) 1 e he
    have h2 := dataFrom_snd_lt (pre ++ c :: post) 1 e he
    omega

/-- Witness for claim C5 at a concrete two-cluster input. -/
theorem claim_C5_witness :
    (([(⟨[7], 3, ⟨1, 2⟩⟩ : Cluster), ⟨[4, 9], 2, ⟨1, 4⟩⟩] : List Cluster)
        = [⟨[7], 3, ⟨1, 2⟩⟩] ++ (⟨[4, 9], 2, ⟨1, 4⟩⟩ : Cluster) :: [])
    ∧ ((computeData [⟨[7], 3, ⟨1, 2⟩⟩, ⟨[4, 9], 2, ⟨1, 4⟩⟩]).filter
          (fun e => e.2.1 == ([(⟨[7], 3, ⟨1, 2⟩⟩ : Cluster)]).length + 1)
        = ([4, 9].map fun n =>
            (n, ([(⟨[7], 3, ⟨1, 2⟩⟩ : Cluster)]).length + 1, 2, (⟨1, 4⟩ : Frac)))) := by
  constructor
  · rfl
  · exact (claim_C5 [⟨[7], 3, ⟨1, 2⟩⟩, ⟨[4, 9], 2, ⟨1, 4⟩⟩] [⟨[7], 3, ⟨1, 2⟩⟩] []
      ⟨[4, 9], 2, ⟨1, 4⟩⟩ rfl).1

/-! ## Claim C6 -/

/-- Claim C6: `save(filename, tsv=False)` writes exactly the header line
`node_id,cluster_id,k_value,modularity` followed by one comma-separated
line per cluster membership rendering that node's id, its cluster's 1-based
id, the cluster's `k_value` and the cluster's modularity — i.e. exactly the
rows of the `data` property. -/
theorem claim_C6 (r : ClusterResult) :
    r.save false
      = "node_id,cluster_id,k_value,modularity"
          :: (computeData r.clusters).map csvRender
    ∧ (r.save false).length = 1 + (r.clusters.map fun c => c.nodes.length).sum := by
  constructor
  · simp [ClusterResult.save, csvBodyFrom_eq_map, computeData]
  · simp [ClusterResult.save, csvBodyFrom_eq_map, computeData, dataFrom_length]
    omega

/-! ## Claim C9 -/

/-- Claim C9: `len(result)`, `result.num_nodes`, the total membership count
summed over `result.clusters`, and the length of `result.data` agree, and
repeated reads of the `data` property return the same list.  The hypothesis
is the cache invariant every reachable `ClusterResult` satisfies: `_data`
is either unset or holds the computed rows. -/
theorem claim_C9 (r : ClusterResult)
    (h : r.dataCache = none ∨ r.dataCache = some (computeData r.clusters)) :
    r.len = r.num_nodes
    ∧ r.num_nodes = (r.clusters.map fun c => c.nodes.length).sum
    ∧ (r.data.1).length = r.num_nodes
    ∧ ((r.data.2).data).1 = r.data.1 := by
  have hsum : r.num_nodes = (r.clusters.map fun c => c.nodes.length).sum := by
    rw [ClusterResult.num_nodes, foldl_add_eq_sum]
    omega
  refine ⟨rfl, hsum, ?_, ?_⟩
  · rcases h with h | h <;>
      simp [ClusterResult.data, h, computeData, dataFrom_length, hsum]
  · rcases h with h | h <;> simp [ClusterResult.data, h]

/-- Witness for claim C9 at a concrete freshly-constructed result. -/
theorem claim_C9_witness :
    ((ClusterResult.make [⟨[4, 5], 2, ⟨1, 2⟩⟩]).dataCache = none
      ∨ (ClusterResult.make [⟨[4, 5], 2, ⟨1, 2⟩⟩]).dataCache
          = some (computeData (ClusterResult.make [⟨[4, 5], 2, ⟨1, 2⟩⟩]).clusters))
    ∧ ((ClusterResult.make [⟨[4, 5], 2, ⟨1, 2⟩⟩]).len
          = (ClusterResult.make [⟨[4, 5], 2, ⟨1, 2⟩⟩]).num_nodes
        ∧ (ClusterResult.make [⟨[4, 5], 2, ⟨1, 2⟩⟩]).num_nodes
          = (((ClusterResult.make [⟨[4, 5], 2, ⟨1, 2⟩⟩]).clusters.map
              fun c => c.nodes.length).sum)
        ∧ (((ClusterResult.make [⟨[4, 5], 2, ⟨1, 2⟩⟩]).data.1).length
          = (ClusterResult.make [⟨[4, 5], 2, ⟨1, 2⟩⟩]).num_nodes)
        ∧ (((ClusterResult.make [⟨[4, 5], 2, ⟨1, 2⟩⟩]).data.2).data).1
          = (ClusterResult.make [⟨[4, 5], 2, ⟨1, 2⟩⟩]).data.1) :=
  ⟨Or.inl rfl, claim_C9 (ClusterResult.make [⟨[4, 5], 2, ⟨1, 2⟩⟩]) (Or.inl rfl)⟩

/-! ## Claims C4 and C10: behaviour before `ikc()` -/

/-- A concrete `StreamingGraph` state as produced by `__init__` (no initial
clustering yet), used by the witnesses below. -/
def freshStream : StreamingGraph :=
  ⟨"graph.tsv", FinGraph.ofEdges [(0, 1), (1, 2), (2, 0)], none, none, none⟩

/-- Claim C4: on a `StreamingGraph` on which `ikc()` has not yet been
called, each mutating operation among `add_edges`, `add_nodes`, `update`,
`begin_batch`, `commit_batch` fails with the not-initialized error and
returns the state unchanged. -/
theorem claim_C4 (s : StreamingGraph) (h : s.streaming_ikc = none) :
    (∀ es, s.add_edges es = (.error (.noInitialClustering "add_edges"), s))
    ∧ (∀ ns, s.add_nodes ns = (.error (.noInitialClustering "add_nodes"), s))
    ∧ (∀ es ns, s.update es ns = (.error (.noInitialClustering "update"), s))
    ∧ s.begin_batch = (.error (.noInitialClustering "begin_batch"), s)
    ∧ s.commit_batch = (.error (.noInitialClustering "commit_batch"), s) := by
  refine ⟨fun es => ?_, fun ns => ?_, fun es ns => ?_, ?_, ?_⟩ <;>
    simp [StreamingGraph.add_edges, StreamingGraph.add_nodes, StreamingGraph.update,
      StreamingGraph.begin_batch, StreamingGraph.commit_batch, h]

/-- Witness for claim C4 on a concrete freshly-constructed state. -/
theorem claim_C4_witness :
    freshStream.streaming_ikc = none
    ∧ freshStream.add_edges [(1, 2)]
        = (.error (.noInitialClustering "add_edges"), freshStream)
    ∧ freshStream.add_nodes [9]
        = (.error (.noInitialClustering "add_nodes"), freshStream)
    ∧ freshStream.update [(1, 9)] [9]
        = (.error (.noInitialClustering "update"), freshStream)
    ∧ freshStream.begin_batch
        = (.error (.noInitialClustering "begin_batch"), freshStream)
    ∧ freshStream.commit_batch
        = (.error (.noInitialClustering "commit_batch"), freshStream) := by
  have h := claim_C4 freshStream rfl
  exact ⟨rfl, h.1 [(1, 2)], h.2.1 [9], h.2.2.1 [(1, 9)] [9], h.2.2.2.1, h.2.2.2.2⟩

/-- Claim C10: on a `StreamingGraph` on which `ikc()` has not yet been
called, the read-only accessors return their documented defaults:
`max_core` is `None`, `last_update_stats` is `None`, `is_batch_mode` is
`False`, and `current_clustering` is `None` (none of them raises). -/
theorem claim_C10 (s : StreamingGraph) (h1 : s.streaming_ikc = none)
    (h2 : s.current_result = none) :
    s.max_core = none
    ∧ s.last_update_stats = none
    ∧ s.is_batch_mode = false
    ∧ s.current_clustering = none := by
  refine ⟨?_, ?_, ?_, ?_⟩ <;>
    simp [StreamingGraph.max_core, StreamingGraph.last_update_stats,
      StreamingGraph.is_batch_mode, StreamingGraph.current_clustering, h1, h2]

/-- Witness for claim C10 on a concrete freshly-constructed state. -/
theorem claim_C10_witness :
    (freshStream.streaming_ikc = none ∧ freshStream.current_result = none)
    ∧ (freshStream.max_core = none
        ∧ freshStream.last_update_stats = none
        ∧ freshStream.is_batch_mode = false
        ∧ freshStream.current_clustering = none) :=
  ⟨⟨rfl, rfl⟩, claim_C10 freshStream rfl rfl⟩

/-! ## Claim C8: constructor on a missing file -/

/-- Claim C8: constructing a `Graph` or a `StreamingGraph` from a path that
does not name an existing file fails with a file-not-found error, and the
loader is never consulted (the outcome is independent of what the loader
would return). -/
theorem claim_C8 (fs : FileSystem) (loadA loadB : String → FinGraph) (path : String)
    (h : fs.exists_file (fs.resolve path) = false) :
    Graph.init fs loadA path = .error (.fileNotFound (fs.resolve path))
    ∧ StreamingGraph.init fs loadA path = .error (.fileNotFound (fs.resolve path))
    ∧ load_graph fs loadA path = load_graph fs loadB path
    ∧ StreamingGraph.init fs loadA path = StreamingGraph.init fs loadB path := by
  refine ⟨?_, ?_, ?_, ?_⟩ <;>
    simp [Graph.init, StreamingGraph.init, load_graph, h]

/-- Witness for claim C8 on a concrete filesystem without the file. -/
theorem claim_C8_witness :
    (FileSystem.mk (fun p => p) (fun _ => false)).exists_file
        ((FileSystem.mk (fun p => p) (fun _ => false)).resolve "missing.tsv") = false
    ∧ Graph.init (FileSystem.mk (fun p => p) (fun _ => false)) (fun _ => FinGraph.empty)
        "missing.tsv" = .error (.fileNotFound "missing.tsv") :=
  ⟨rfl,
   (claim_C8 (FileSystem.mk (fun p => p) (fun _ => false)) (fun _ => FinGraph.empty)
      (fun _ => FinGraph.ofEdges [(0, 1)]) "missing.tsv" rfl).1⟩

/-! ## Claim C3: validation in `update` -/

/-- Claim C3: after initial clustering, `update(new_edges, new_nodes)`
raises an error exactly when some endpoint of an edge in `new_edges` is
neither an already-known vertex nor listed in `new_nodes`; and whenever it
raises, the `current_clustering` property is unchanged.  The engine side of
`update` is modelled from the spec (section 4.E, Validation). -/
theorem claim_C3 (s : StreamingGraph) (eng : StreamingIKC)
    (h : s.streaming_ikc = some eng) (new_edges : List Edge) (new_nodes : List Nat) :
    ((∃ err, (s.update new_edges new_nodes).1 = .error err) ↔
      ∃ p ∈ new_edges,
        (p.1 ∉ eng.g.verts ∧ p.1 ∉ new_nodes)
        ∨ (p.2 ∉ eng.g.verts ∧ p.2 ∉ new_nodes))
    ∧ ∀ err, (s.update new_edges new_nodes).1 = .error err →
        (s.update new_edges new_nodes).2.current_clustering = s.current_clustering := by
  have hupd : s.update new_edges new_nodes =
      match eng.update new_edges new_nodes with
      | .error err => (.error err, s)
      | .ok (cs, eng') =>
        (.ok (ClusterResult.make cs),
         { s with streaming_ikc := some eng', current_result := some (ClusterResult.make cs) }) := by
    rw [StreamingGraph.update, h]
  rcases hf : new_edges.find?
      (fun p => !((eng.known p.1 || new_nodes.contains p.1)
        && (eng.known p.2 || new_nodes.contains p.2))) with _ | p
  · have hok : eng.update new_edges new_nodes
        = .ok ((eng.commitAdditions new_nodes new_edges).clusters,
               eng.commitAdditions new_nodes new_edges) := by
      rw [StreamingIKC.update, hf]
    rw [hupd, hok]
    constructor
    · constructor
      · rintro ⟨err, herr⟩
        simp at herr
      · rintro ⟨p, hp, hbad⟩
        have hnone := List.find?_eq_none.mp hf p hp
        simp [StreamingIKC.known] at hnone
        rcases hbad with ⟨h1, h2⟩ | ⟨h1, h2⟩
        · exact absurd (hnone.1 h1) h2
        · exact absurd (hnone.2 h1) h2
    · intro err herr
      simp at herr
  · have herr : eng.update new_edges new_nodes
        = .error (.edgeReferencesUnknownVertex
            (if !(eng.known p.1 || new_nodes.contains p.1) then p.1 else p.2)) := by
      rw [StreamingIKC.update, hf]
    rw [hupd, herr]
    have hmem := List.mem_of_find?_eq_some hf
    have hbad := List.find?_some hf
    constructor
    · constructor
      · intro _
        refine ⟨p, hmem, ?_⟩
        simp [StreamingIKC.known] at hbad
        exact hbad
      · intro _
        exact ⟨_, rfl⟩
    · intro err _
      rfl

/-- Concrete engine state for the claim C3 witness. -/
def c3Engine : StreamingIKC :=
  ⟨FinGraph.ofEdges [(0, 1)], 2, 1, [], false, [], [], UpdateStats.zero⟩

/-- Concrete post-`ikc()` wrapper state for the claim C3 witness. -/
def c3State : StreamingGraph :=
  ⟨"graph.tsv", FinGraph.ofEdges [(0, 1)], some c3Engine, some 2, none⟩

/-- Witness for claim C3 at a concrete input containing an unknown
endpoint. -/
theorem claim_C3_witness :
    c3State.streaming_ikc = some c3Engine
    ∧ (((∃ err, (c3State.update [(0, 5)] []).1 = .error err) ↔
        ∃ p ∈ [((0 : Nat), (5 : Nat))],
          (p.1 ∉ c3Engine.g.verts ∧ p.1 ∉ ([] : List Nat))
          ∨ (p.2 ∉ c3Engine.g.verts ∧ p.2 ∉ ([] : List Nat)))
      ∧ ∀ err, (c3State.update [(0, 5)] []).1 = .error err →
          (c3State.update [(0, 5)] []).2.current_clustering
            = c3State.current_clustering) :=
  ⟨rfl, claim_C3 c3State c3Engine rfl [(0, 5)] []⟩

/-! ## Faithfulness of the exact-fraction modularity -/

/-- The exact fraction carried by emitted clusters has precisely the
spec's modularity value `e_H/m − (d_H/(2m))²` whenever `m > 0`. -/
theorem modularityFrac_toRat (orig cur : FinGraph) (H : List Nat) (m : Nat)
    (hm : 0 < m) :
    (modularityFrac orig cur H m).toRat = clusterModularity orig cur H m := by
  have hm' : (m : ℚ) ≠ 0 := by exact_mod_cast hm.ne'
  unfold modularityFrac Frac.toRat clusterModularity
  push_cast
  field_simp
  ring

/-- The driver's emission test `0 < num` coincides with the spec's test
`q > 0` whenever `m > 0`. -/
theorem modularityFrac_pos_iff (orig cur : FinGraph) (H : List Nat) (m : Nat)
    (hm : 0 < m) :
    0 < (modularityFrac orig cur H m).num ↔ 0 < clusterModularity orig cur H m := by
  rw [← modularityFrac_toRat orig cur H m hm]
  unfold modularityFrac Frac.toRat
  have hden : (0 : ℚ) < ((4 * (m : ℤ) ^ 2 : ℤ) : ℚ) := by
    have : (0 : ℤ) < 4 * (m : ℤ) ^ 2 := by positivity
    exact_mod_cast this
  rw [lt_div_iff₀ hden]
  push_cast
  simp
  constructor <;> intro h <;> exact_mod_cast h

/-! ## Claim C1 -/

/-- The initial graph of the claim C1 failing input: two triangles
`{0,1,2}` and `{5,6,7}` plus a filler edge `(20,21)` (7 edges, so the
frozen modularity reference is `total_m = 7`). -/
def c1Graph : FinGraph :=
  FinGraph.ofEdges [(0, 1), (1, 2), (2, 0), (5, 6), (6, 7), (7, 5), (20, 21)]

/-- The state after the committed update `add_edges([(5,8),(6,8),(7,8)])`
(which turns `{5,6,7,8}` into a K4). -/
def c1After : List Cluster × StreamingIKC :=
  (StreamingIKC.initial c1Graph 2).add_edges [(5, 8), (6, 8), (7, 8)]

/-- Claim C1, evaluated at the failing input.  The spec's incremental
update (section 4.E steps 5–7, with new clusters re-inserted at the
positions of the invalidated clusters) leaves the re-emitted k=3 cluster at
the invalidated k=2 cluster's old position, producing the k_value sequence
`[2, 3]`, while the from-scratch driver on the resulting graph with the
same `min_k = 2` and the frozen `total_m = 7` emits `[3, 2]`.  The two
clusterings contain exactly the same clusters (same node sets, k_values
and modularities), so no reordering among clusters of *equal* k_value can
reconcile them: the claimed indistinguishability fails, while the spec's
own ordering guarantee (section 4.D) and correctness invariant demand it. -/
theorem claim_C1 :
    (StreamingIKC.initial c1Graph 2).clusters
        = [⟨[0, 1, 2], 2, ⟨48, 196⟩⟩, ⟨[5, 6, 7], 2, ⟨48, 196⟩⟩]
    ∧ c1After.2.total_m = 7
    ∧ c1After.1 = [⟨[0, 1, 2], 2, ⟨48, 196⟩⟩, ⟨[5, 6, 7, 8], 3, ⟨24, 196⟩⟩]
    ∧ run_ikc_on c1After.2.g c1After.2.g 2 7
        = [⟨[5, 6, 7, 8], 3, ⟨24, 196⟩⟩, ⟨[0, 1, 2], 2, ⟨48, 196⟩⟩]
    ∧ c1After.1.map Cluster.k_value
        ≠ (run_ikc_on c1After.2.g c1After.2.g 2 7).map Cluster.k_value := by
  decide

end Ikc
